import Mathlib

/-!
Shallow embedding, in Lean 4, of the send pipeline of `send_mail_merge.py`
(mailflow repository): template rendering, e-mail validation, contact
filtering, the SMTP delivery engine with retry/backoff, message building
and the orchestrating main loop.  Strings are modelled as `List Char`
(`Str`); effects (SMTP transport, DNS resolution, clock) are passed in as
explicit parameters.
-/

/-- Python strings are modelled as lists of characters. -/
abbrev Str := List Char

/-- String literal to `Str` conversion. -/
def asStr (s : String) : Str := s.data

/-- Characters stripped by Python `str.strip()` (ASCII whitespace). -/
def pyWS (c : Char) : Bool :=
  c = ' ' || c = '\t' || c = '\n' || c = '\x0d' || c = '\x0b' || c = '\x0c'

/-- Embedding of Python `str.strip()`: drop whitespace at both ends. -/
def pyStrip (s : Str) : Str :=
  ((s.dropWhile pyWS).reverse.dropWhile pyWS).reverse

/-- Per-character `str.upper()` (ASCII range, enough for the statuses used). -/
def upperChar (c : Char) : Char :=
  if 'a' ≤ c && c ≤ 'z' then Char.ofNat (c.toNat - 32) else c

/-- Embedding of Python `str.upper()`. -/
def strUpper (s : Str) : Str := s.map upperChar

/-- Per-character `str.lower()` (ASCII range). -/
def lowerChar (c : Char) : Char :=
  if 'A' ≤ c && c ≤ 'Z' then Char.ofNat (c.toNat + 32) else c

/-- Embedding of Python `str.lower()`. -/
def strLower (s : Str) : Str := s.map lowerChar

/-- Embedding of the Python substring test `pat in s`. -/
def occurs (pat : Str) : Str → Bool
  | [] => pat.isEmpty
  | c :: rest => pat.isPrefixOf (c :: rest) || occurs pat rest

/-- Worker for `repl`, structurally recursive on a fuel argument so that
it reduces in the kernel; the fuel is always instantiated to the length
of the scanned string, which strictly bounds the recursion depth. -/
def replFuel (pat rep : Str) : Nat → Str → Str
  | _, [] => []
  | 0, s => s
  | fuel + 1, c :: rest =>
    if pat.isPrefixOf (c :: rest) then
      rep ++ replFuel pat rep fuel (rest.drop (pat.length - 1))
    else
      c :: replFuel pat rep fuel rest

/-- Embedding of Python `s.replace(pat, rep)` for a non-empty `pat`:
leftmost-first, non-overlapping replacement, resuming after the
replaced text. -/
def repl (pat rep : Str) (s : Str) : Str :=
  replFuel pat rep s.length s

/-- The literal placeholder text for a key, Python
`"{" + "{" + key + "}" + "}"` built by the f-string in
`render_template`. -/
def placeholder (key : Str) : Str :=
  '{' :: '{' :: key ++ ['}', '}']

/-- Embedding of `render_template` (`send_mail_merge.py:167`): fold over the
context, replacing every occurrence of each key's placeholder by the key's
value.  Python dicts iterate in insertion order, hence the association
list. -/
def render_template (template : Str) (context : List (Str × Str)) : Str :=
  context.foldl (fun acc kv => repl (placeholder kv.1) kv.2 acc) template

/-- Split a string at the first occurrence of a character: Python
`s.split(ch)[0]` / `s.split(ch)[1]`-style access (`none` when the
character does not occur). -/
def splitFirst (ch : Char) : Str → Option (Str × Str)
  | [] => none
  | c :: rest =>
    if c = ch then some ([], rest)
    else (splitFirst ch rest).map (fun p => (c :: p.1, p.2))

/-- Split a string at its last occurrence of a character. -/
def splitLast (ch : Char) (s : Str) : Option (Str × Str) :=
  (splitFirst ch s.reverse).map (fun p => (p.2.reverse, p.1.reverse))

/-- Character class `[a-zA-Z0-9._%+-]` of the local part of the e-mail
regex in `validate_email` (`send_mail_merge.py:78`). -/
def localChar (c : Char) : Bool :=
  c.isAlpha || c.isDigit || c = '.' || c = '_' || c = '%' || c = '+' || c = '-'

/-- Character class `[a-zA-Z0-9.-]` of the domain part of the regex. -/
def domChar (c : Char) : Bool :=
  c.isAlpha || c.isDigit || c = '.' || c = '-'

/-- The domain side of the regex, `[a-zA-Z0-9.-]+\.[a-zA-Z]\x7b2,\x7d$`:
a non-empty run of domain characters, a dot, then at least two letters.
Since the trailing letter run may not contain a dot, the separating dot
is necessarily the last dot of the string. -/
def domainOk (d : Str) : Bool :=
  match splitLast '.' d with
  | none => false
  | some (pre, tld) =>
    !pre.isEmpty && pre.all domChar && decide (2 ≤ tld.length) && tld.all Char.isAlpha

/-- The anchored regex `^[a-zA-Z0-9._%+-]+@[a-zA-Z0-9.-]+\.[a-zA-Z]\x7b2,\x7d$`
of `validate_email`.  Neither class contains `@`, so a matching string has
exactly one `@` and the split below is the unique decomposition. -/
def emailSyntaxOk (e : Str) : Bool :=
  match splitFirst '@' e with
  | none => false
  | some (lp, dom) => !lp.isEmpty && lp.all localChar && domainOk dom

/-- Embedding of `validate_email` (`send_mail_merge.py:76`): the regex
check followed by a DNS lookup of the text after the `@`.  The lookup
(`socket.gethostbyname`) is an external effect, passed in as the oracle
`resolve`; a raised `socket.gaierror` is `resolve _ = false`. -/
def validate_email (resolve : Str → Bool) (e : Str) : Bool :=
  if emailSyntaxOk e then
    match splitFirst '@' e with
    | some (_, dom) => resolve dom
    | none => false
  else false

/-- One CSV row of the contacts file (`load_contacts` requires exactly
these columns). -/
structure Contact where
  email : Str
  hotel_name : Str
  city : Str
  contact_name : Str
  notes : Str
  status : Str
  sent_at : Str
deriving DecidableEq

/-- One row of the append-only outbox log (`log_to_file`). -/
structure LogEntry where
  email : Str
  hotel_name : Str
  city : Str
  contact_name : Str
  status : Str
  info : Str
  timestamp : Str
deriving DecidableEq

/-- The status test of the filter loop (`send_mail_merge.py:454`):
`contact.get("status", "").strip().upper() in ["SENT", "SKIP"]`. -/
def statusSkip (st : Str) : Bool :=
  strUpper (pyStrip st) = asStr ("SENT") || strUpper (pyStrip st) = asStr ("SKIP")

/-- The ERROR log entry written for an invalid e-mail address
(`send_mail_merge.py:464`). -/
def invalidLog (now : Str) (c : Contact) : LogEntry :=
  ⟨c.email, c.hotel_name, c.city, c.contact_name,
   asStr ("ERROR"), asStr ("Invalid email format"), now⟩

/-- Truthiness-faithful embedding of
`if args.max and len(contacts_to_send) >= args.max: break`
(`send_mail_merge.py:479`): `args.max` is `None` when absent and `0` is
falsy. -/
def maxReached (maxN : Option Int) (len : Nat) : Bool :=
  match maxN with
  | none => false
  | some m => m ≠ 0 && (len : Int) ≥ m

/-- Embedding of the contact-filter loop of `main`
(`send_mail_merge.py:446-480`).  `idx` is the enumeration index, `cnt`
the number of contacts selected so far (`len(contacts_to_send)`); the
result is the pair (`contacts_to_send`, log entries written by the
filter, in order). -/
def filterContacts (fromRow : Int) (maxN : Option Int) (resolve : Str → Bool)
    (now : Str) : Nat → Nat → List Contact → List (Nat × Contact) × List LogEntry
  | _, _, [] => ([], [])
  | idx, cnt, c :: rest =>
    if (idx : Int) < fromRow then
      filterContacts fromRow maxN resolve now (idx + 1) cnt rest
    else if statusSkip c.status then
      filterContacts fromRow maxN resolve now (idx + 1) cnt rest
    else if !validate_email resolve c.email then
      let r := filterContacts fromRow maxN resolve now (idx + 1) cnt rest
      (r.1, invalidLog now c :: r.2)
    else if maxReached maxN (cnt + 1) then
      ([(idx, c)], [])
    else
      let r := filterContacts fromRow maxN resolve now (idx + 1) (cnt + 1) rest
      ((idx, c) :: r.1, r.2)

/-- The fixed dry-run success detail of `send_email`
(`send_mail_merge.py:299`). -/
def dryMarker : Str := asStr ("DRY RUN - Email not sent")

/-- Embedding of `send_email` (`send_mail_merge.py:296`).  The SMTP
session is the external transport collaborator; `smtpOutcome` is what one
full session yields (the `(True, "Email sent successfully")` success pair
or one of the `except`-branch failure pairs of lines 323-336).  The
second component counts transport sessions opened: in dry-run mode the
function returns before any SMTP code runs. -/
def send_email (dry_run : Bool) (smtpOutcome : Bool × Str) : (Bool × Str) × Nat :=
  if dry_run then ((true, dryMarker), 0) else (smtpOutcome, 1)

/-- The two non-retry classifications of `send_email_with_retry`
(`send_mail_merge.py:347-353`): both the authentication branch and the
invalid-recipient branch return `(success, info)` unchanged, so they are
merged into one predicate.
`"Authentication" in info or "auth" in info.lower()` and
`"recipient" in info.lower() or "address" in info.lower()`. -/
def infoNonRetryable (info : Str) : Bool :=
  occurs (asStr ("Authentication")) info ||
  occurs (asStr ("auth")) (strLower info) ||
  occurs (asStr ("recipient")) (strLower info) ||
  occurs (asStr ("address")) (strLower info)

/-- The detail string
`f"Failed after \x7bmax_retries\x7d attempts: \x7binfo\x7d"` of
`send_mail_merge.py:360`. -/
def failedAfter (max_retries : Nat) (info : Str) : Str :=
  asStr ("Failed after ") ++ (toString max_retries).data ++
  asStr (" attempts: ") ++ info

/-- Observable result of one `send_email_with_retry` call: the returned
`(success, info)` pair plus the number of `send_email` attempts made, the
backoff sleeps performed (in seconds, in order) and the number of
transport sessions opened. -/
structure RetryOutcome where
  success : Bool
  info : Str
  attempts : Nat
  sleeps : List Nat
  calls : Nat
deriving DecidableEq

/-- The `for attempt in range(max_retries)` loop of
`send_email_with_retry` (`send_mail_merge.py:341-360`), entered at
iteration `attempt` with `rem` iterations left (the caller maintains
`attempt + rem = max_retries`, so `rem = 0` is exactly the loop running
out).  Every `return` inside the loop is a `some`; falling off the loop
end is `none`.  `outs attempt` is the transport outcome of attempt
number `attempt`. -/
def retryLoop (dry_run : Bool) (outs : Nat → Bool × Str) (max_retries : Nat) :
    Nat → Nat → Option RetryOutcome
  | _, 0 => none
  | attempt, rem + 1 =>
    let r := send_email dry_run (outs attempt)
    if r.1.1 then
      some ⟨true, r.1.2, attempt + 1, [], r.2⟩
    else if infoNonRetryable r.1.2 then
      some ⟨false, r.1.2, attempt + 1, [], r.2⟩
    else if attempt < max_retries - 1 then
      match retryLoop dry_run outs max_retries (attempt + 1) rem with
      | some out => some { out with sleeps := 5 * 2 ^ attempt :: out.sleeps,
                                    calls := r.2 + out.calls }
      | none => none
    else
      some ⟨false, failedAfter max_retries r.1.2, attempt + 1, [], r.2⟩

/-- Embedding of `send_email_with_retry` (`send_mail_merge.py:339`): run
the loop from attempt 0 with `max_retries` iterations available; the
`getD` default is the trailing `return False, "Max retries exceeded"`
after the loop.  The Python parameter `max_retries` defaults to 3;
`main` always calls with the default. -/
def send_email_with_retry (dry_run : Bool) (outs : Nat → Bool × Str)
    (max_retries : Nat) : RetryOutcome :=
  (retryLoop dry_run outs max_retries 0 max_retries).getD
    ⟨false, asStr ("Max retries exceeded"), 0, [], 0⟩

/-- The generic greeting substituted for an empty contact name
(`send_mail_merge.py:504`). -/
def genericName : Str := asStr ("Responsabile delle risorse umane")

/-- The `contact_name` variable of the send loop
(`send_mail_merge.py:500-504`): the CSV field stripped, or the generic
greeting when that is empty. -/
def effContactName (c : Contact) : Str :=
  if pyStrip c.contact_name = [] then genericName else pyStrip c.contact_name

/-- The per-contact render context of `send_mail_merge.py:513-519`
(insertion order preserved). -/
def contactContext (senderName today : Str) (c : Contact) : List (Str × Str) :=
  [(asStr ("contact_name"), effContactName c),
   (asStr ("hotel_name"), c.hotel_name),
   (asStr ("city"), c.city),
   (asStr ("sender_name"), senderName),
   (asStr ("today"), today)]

/-- The To header of a composed message: `formataddr((to_name, to_email))`
with a display name, or the bare address string. -/
inductive ToField where
  | bare : Str → ToField
  | withName : Str → Str → ToField
deriving DecidableEq

/-- The parts of the `EmailMessage` built by `create_email_message` that
the claims are about.  (The From header, the derived plain-text
alternative and the optional PDF attachment of lines 273-291 are
collaborator-produced data attached verbatim and are not modelled.) -/
structure EmailMsg where
  subject : Str
  htmlBody : Str
  toHdr : ToField
deriving DecidableEq

/-- Embedding of the header logic of `create_email_message`
(`send_mail_merge.py:275-278`): `if to_name:` — a display name is set
exactly when `to_name` is a non-empty string. -/
def create_email_message (subject htmlBody to_email to_name : Str) : EmailMsg :=
  { subject := subject,
    htmlBody := htmlBody,
    toHdr := if !to_name.isEmpty then ToField.withName to_name to_email
              else ToField.bare to_email }

/-- The `to_name` argument `main` passes to `create_email_message`
(`send_mail_merge.py:533`):
`contact_name if contact_name != "Responsabile delle risorse umane" else ""`. -/
def toNameArg (c : Contact) : Str :=
  if effContactName c ≠ genericName then effContactName c else []

/-- Per-contact message construction of the send loop
(`send_mail_merge.py:512-535`): render subject and body with the contact
context, then build the message. -/
def composeMessage (subjT htmlT senderName today : Str) (c : Contact) : EmailMsg :=
  let ctx := contactContext senderName today c
  create_email_message (render_template subjT ctx) (render_template htmlT ctx)
    c.email (toNameArg c)

/-- The `stats` dictionary of `main` (`send_mail_merge.py:493`); `skipped`
is initialised and never incremented. -/
structure RunStats where
  sent : Nat
  failed : Nat
  skipped : Nat
deriving DecidableEq

/-- In-place update of the contact list at one index
(`contacts[original_idx][...] = ...`). -/
def updateNth (f : Contact → Contact) : List Contact → Nat → List Contact
  | [], _ => []
  | c :: rest, 0 => f c :: rest
  | c :: rest, n + 1 => c :: updateNth f rest n

/-- The status/sent_at mutation on success under `--update-contacts`
(`send_mail_merge.py:547-551`). -/
def markSent (sentStamp : Str) (c : Contact) : Contact :=
  { c with status := asStr ("SENT"), sent_at := sentStamp }

/-- The success log entry (`send_mail_merge.py:554-563`):
status `"SENT" if not args.dry_run else "DRY_RUN"`. -/
def successLog (dry : Bool) (logStamp : Str) (c : Contact) (info : Str) : LogEntry :=
  ⟨c.email, c.hotel_name, c.city, effContactName c,
   if dry then asStr ("DRY_RUN") else asStr ("SENT"), info, logStamp⟩

/-- The failure log entry (`send_mail_merge.py:569-578`). -/
def failureLog (logStamp : Str) (c : Contact) (info : Str) : LogEntry :=
  ⟨c.email, c.hotel_name, c.city, effContactName c,
   asStr ("ERROR"), info, logStamp⟩

/-- The send loop of `main` (`send_mail_merge.py:496-582`) over
`contacts_to_send`, threading the contact list, statistics and the log.
`outs k` is the transport behaviour for the `k`-th selected contact
(attempt number → outcome); message construction (`composeMessage`) has
no observable effect on this state and the inter-send pacing sleep does
not change it either. -/
def sendLoop (dry upd : Bool) (outs : Nat → Nat → Bool × Str)
    (sentStamp logStamp : Str) :
    List Contact → RunStats → List LogEntry → Nat → List (Nat × Contact) →
    List Contact × RunStats × List LogEntry
  | cs, stats, logs, _, [] => (cs, stats, logs)
  | cs, stats, logs, k, (i, c) :: rest =>
    let r := send_email_with_retry dry (outs k) 3
    if r.success then
      let cs' := if upd then updateNth (markSent sentStamp) cs i else cs
      sendLoop dry upd outs sentStamp logStamp cs'
        ⟨stats.sent + 1, stats.failed, stats.skipped⟩
        (logs ++ [successLog dry logStamp c r.info]) (k + 1) rest
    else
      sendLoop dry upd outs sentStamp logStamp cs
        ⟨stats.sent, stats.failed + 1, stats.skipped⟩
        (logs ++ [failureLog logStamp c r.info]) (k + 1) rest

/-- Observable outcome of one `main` run (from the point where
configuration, templates and contacts are loaded — the earlier
`sys.exit(1)` paths of `load_env_config`/`load_template`/`load_contacts`
abort before this core runs). -/
structure MainResult where
  exit : Nat
  contacts : List Contact
  logs : List LogEntry
  stats : RunStats
  csvSaved : Bool
deriving DecidableEq

/-- Embedding of the core of `main` (`send_mail_merge.py:446-604`):
filter, the `sys.exit(0)` on an empty selection
(`send_mail_merge.py:482-484`), the send loop, and the final
`if args.update_contacts and stats["sent"] > 0: save_contacts(...)`
(`send_mail_merge.py:585-591`).  Normal completion is exit status 0. -/
def mainRun (fromRow : Int) (maxN : Option Int) (resolve : Str → Bool)
    (dry upd : Bool) (outs : Nat → Nat → Bool × Str)
    (now sentStamp logStamp : Str) (contacts : List Contact) : MainResult :=
  let f := filterContacts fromRow maxN resolve now 0 0 contacts
  if f.1.isEmpty then
    ⟨0, contacts, f.2, ⟨0, 0, 0⟩, false⟩
  else
    let r := sendLoop dry upd outs sentStamp logStamp contacts ⟨0, 0, 0⟩ f.2 0 f.1
    ⟨0, r.1, r.2.2, r.2.1, upd && decide (0 < r.2.1.sent)⟩

/-- A realistic detail string produced by the
`except smtplib.SMTPAuthenticationError` branch of `send_email`
(`send_mail_merge.py:323-324`): the Spanish prefix of the f-string with a
typical `str(e)` for a 535 reply. -/
def authDetail : Str :=
  asStr ("Error de autenticación SMTP: (535, 5.7.8 Username and Password not accepted)")

/-- A realistic detail string produced by the `except ConnectionError`
branch of `send_email` (`send_mail_merge.py:333-334`). -/
def connDetail : Str :=
  asStr ("Error de conexión: connection refused by peer")

/-- A template segment: a literal piece of text or a `\x7b\x7bkey\x7d\x7d`
placeholder.  Used to state the corrected rendering claim: a template
that decomposes into literals and placeholders. -/
inductive Seg where
  | lit : Str → Seg
  | hole : Str → Seg
deriving DecidableEq

/-- Flatten a segment list back into the template text. -/
def flat : List Seg → Str
  | [] => []
  | Seg.lit l :: r => l ++ flat r
  | Seg.hole k :: r => placeholder k ++ flat r

/-- No opening brace occurs in the string. -/
def openFree (s : Str) : Bool := s.all (fun c => c ≠ '{')

/-- Neither brace occurs in the string. -/
def braceFree (s : Str) : Bool := s.all (fun c => c ≠ '{' && c ≠ '}')

/-- Well-formedness of one segment: literal text free of opening braces,
placeholder keys free of both braces. -/
def segOk : Seg → Bool
  | Seg.lit l => openFree l
  | Seg.hole k => braceFree k

/-- Well-formedness of a segment list. -/
def segsOk (sg : List Seg) : Bool := sg.all segOk

/-- Substitute one key's value: every `hole k` becomes `lit v`. -/
def fillOne (k v : Str) : List Seg → List Seg :=
  List.map fun s =>
    match s with
    | Seg.hole k2 => if k2 = k then Seg.lit v else Seg.hole k2
    | s => s

/-- Substitute a whole context, first binding first (the iteration order
of `render_template`). -/
def fillAll (ctx : List (Str × Str)) (sg : List Seg) : List Seg :=
  ctx.foldl (fun sg kv => fillOne kv.1 kv.2 sg) sg

/-- Context well-formedness for the corrected rendering claim: distinct
keys, keys free of braces, values free of opening braces. -/
def ctxOk (ctx : List (Str × Str)) : Bool :=
  decide ((ctx.map Prod.fst).Nodup) &&
  ctx.all (fun kv => braceFree kv.1 && openFree kv.2)

/-- Every context key occurs in the template as a placeholder. -/
def keysUsed (sg : List Seg) (ctx : List (Str × Str)) : Bool :=
  ctx.all fun kv => decide (Seg.hole kv.1 ∈ sg)

theorem replFuel_nil (pat rep : Str) (f : Nat) : replFuel pat rep f [] = [] := by
  cases f <;> rfl

theorem replFuel_cons (pat rep : Str) (f : Nat) (c : Char) (rest : Str) :
    replFuel pat rep (f + 1) (c :: rest) =
      if pat.isPrefixOf (c :: rest) then
        rep ++ replFuel pat rep f (rest.drop (pat.length - 1))
      else c :: replFuel pat rep f rest := rfl

theorem replFuel_congr (pat rep : Str) :
    ∀ (f1 f2 : Nat) (s : Str), s.length ≤ f1 → s.length ≤ f2 →
      replFuel pat rep f1 s = replFuel pat rep f2 s := by
  intro f1
  induction f1 with
  | zero =>
    intro f2 s h1 _
    have hs : s = [] := by
      cases s with
      | nil => rfl
      | cons c r => simp at h1
    subst hs
    simp [replFuel_nil]
  | succ f ih =>
    intro f2 s h1 h2
    cases s with
    | nil => simp [replFuel_nil]
    | cons c rest =>
      cases f2 with
      | zero => simp at h2
      | succ f2 =>
        rw [replFuel_cons, replFuel_cons]
        simp only [List.length_cons] at h1 h2
        by_cases hp : pat.isPrefixOf (c :: rest)
        · rw [if_pos hp, if_pos hp]
          have hd : (rest.drop (pat.length - 1)).length ≤ rest.length := by
            rw [List.length_drop]; omega
          rw [ih f2 (rest.drop (pat.length - 1)) (by omega) (by omega)]
        · rw [if_neg hp, if_neg hp, ih f2 rest (by omega) (by omega)]

theorem repl_nil (pat rep : Str) : repl pat rep [] = [] := rfl

theorem repl_cons_match (pat rep : Str) (c : Char) (rest : Str)
    (h : pat.isPrefixOf (c :: rest) = true) :
    repl pat rep (c :: rest) = rep ++ repl pat rep (rest.drop (pat.length - 1)) := by
  unfold repl
  rw [show (c :: rest).length = rest.length + 1 from rfl, replFuel_cons, if_pos h]
  have hd : (rest.drop (pat.length - 1)).length ≤ rest.length := by
    rw [List.length_drop]; omega
  rw [replFuel_congr pat rep rest.length (rest.drop (pat.length - 1)).length
        (rest.drop (pat.length - 1)) hd le_rfl]

theorem repl_cons_nomatch (pat rep : Str) (c : Char) (rest : Str)
    (h : pat.isPrefixOf (c :: rest) = false) :
    repl pat rep (c :: rest) = c :: repl pat rep rest := by
  unfold repl
  rw [show (c :: rest).length = rest.length + 1 from rfl, replFuel_cons, if_neg]
  simp [h]

theorem isPrefixOf_self_append (p t : Str) : p.isPrefixOf (p ++ t) = true := by
  induction p with
  | nil => simp [List.isPrefixOf]
  | cons a p ih => simp [List.isPrefixOf, ih]

theorem mem_of_isPrefixOf {p s : Str} {c : Char}
    (h : p.isPrefixOf s = true) (hc : c ∈ p) : c ∈ s := by
  induction p generalizing s with
  | nil => simp at hc
  | cons a p ih =>
    cases s with
    | nil => simp [List.isPrefixOf] at h
    | cons b s =>
      simp only [List.isPrefixOf, Bool.and_eq_true, beq_iff_eq] at h
      rcases List.mem_cons.mp hc with hca | hcp
      · exact List.mem_cons.mpr (Or.inl (hca.trans h.1))
      · exact List.mem_cons.mpr (Or.inr (ih h.2 hcp))

theorem occurs_nil_pat (s : Str) : occurs [] s = true := by
  cases s <;> simp [occurs, List.isPrefixOf]

theorem occurs_append_left (p l t : Str) (h : occurs p t = true) :
    occurs p (l ++ t) = true := by
  induction l with
  | nil => simpa using h
  | cons c l ih => simp [occurs, ih]

theorem occurs_self_append (p t : Str) : occurs p (p ++ t) = true := by
  cases p with
  | nil => simpa using occurs_nil_pat t
  | cons a p => simp [occurs, isPrefixOf_self_append]

theorem occurs_middle (v a b : Str) : occurs v (a ++ v ++ b) = true := by
  rw [List.append_assoc]
  exact occurs_append_left v a (v ++ b) (occurs_self_append v b)

theorem mem_of_occurs {p s : Str} {c : Char}
    (h : occurs p s = true) (hc : c ∈ p) : c ∈ s := by
  induction s with
  | nil =>
    rw [show occurs p [] = p.isEmpty from rfl] at h
    cases p with
    | nil => simp at hc
    | cons a p => simp at h
  | cons d rest ih =>
    rw [show occurs p (d :: rest) = (p.isPrefixOf (d :: rest) || occurs p rest) from rfl] at h
    rcases Bool.or_eq_true_iff.mp h with h1 | h2
    · exact mem_of_isPrefixOf h1 hc
    · exact List.mem_cons.mpr (Or.inr (ih h2))

theorem retryLoop_zero (dry : Bool) (outs : Nat → Bool × Str) (m attempt : Nat) :
    retryLoop dry outs m attempt 0 = none := rfl

theorem retryLoop_succ (dry : Bool) (outs : Nat → Bool × Str) (m attempt rem : Nat) :
    retryLoop dry outs m attempt (rem + 1) =
      (let r := send_email dry (outs attempt)
       if r.1.1 then some ⟨true, r.1.2, attempt + 1, [], r.2⟩
       else if infoNonRetryable r.1.2 then some ⟨false, r.1.2, attempt + 1, [], r.2⟩
       else if attempt < m - 1 then
         match retryLoop dry outs m (attempt + 1) rem with
         | some out => some { out with sleeps := 5 * 2 ^ attempt :: out.sleeps,
                                       calls := r.2 + out.calls }
         | none => none
       else some ⟨false, failedAfter m r.1.2, attempt + 1, [], r.2⟩) := rfl

theorem send_email_dry (x : Bool × Str) : send_email true x = ((true, dryMarker), 0) := rfl

theorem send_email_live (x : Bool × Str) : send_email false x = (x, 1) := rfl

theorem retryLoop_total (dry : Bool) (outs : Nat → Bool × Str) (m : Nat) :
    ∀ (rem attempt : Nat), attempt + rem = m → 1 ≤ rem →
      (retryLoop dry outs m attempt rem).isSome = true := by
  intro rem
  induction rem with
  | zero => intro attempt _ h; omega
  | succ rem ih =>
    intro attempt hsum _
    rw [retryLoop_succ]
    by_cases h1 : (send_email dry (outs attempt)).1.1
    · simp [h1]
    · simp only [Bool.not_eq_true] at h1
      by_cases h2 : infoNonRetryable (send_email dry (outs attempt)).1.2
      · simp [h1, h2]
      · simp only [Bool.not_eq_true] at h2
        by_cases h3 : attempt < m - 1
        · have hrem : 1 ≤ rem := by omega
          have := ih (attempt + 1) (by omega) hrem
          simp only [h1, h2, h3, if_true, if_false, Bool.false_eq_true]
          cases hcase : retryLoop dry outs m (attempt + 1) rem with
          | none => rw [hcase] at this; simp at this
          | some out => simp [hcase]
        · simp [h1, h2, h3]

theorem sendRetry_dry (outs : Nat → Bool × Str) (m : Nat) (h : 1 ≤ m) :
    send_email_with_retry true outs m = ⟨true, dryMarker, 1, [], 0⟩ := by
  obtain ⟨rem, rfl⟩ : ∃ rem, m = rem + 1 := ⟨m - 1, by omega⟩
  rfl

/-- C9: for every `max_retries >= 1`, the attempt loop of
`send_email_with_retry` always returns from inside the loop (on success,
on a non-retryable classification, or after the last attempt), so the
trailing `return False, "Max retries exceeded"` after the loop is
unreachable: the loop value is always `some`, and the function returns
it, never the `getD` default. -/
theorem claim9_loop_always_returns (dry : Bool) (outs : Nat → Bool × Str) (m : Nat)
    (h : 1 ≤ m) :
    ∃ out, retryLoop dry outs m 0 m = some out ∧
      send_email_with_retry dry outs m = out := by
  have := retryLoop_total dry outs m m 0 (by omega) h
  cases hcase : retryLoop dry outs m 0 m with
  | none => rw [hcase] at this; simp at this
  | some out => exact ⟨out, rfl, by simp [send_email_with_retry, hcase]⟩

theorem claim9_witness :
    1 ≤ 3 ∧ ∃ out, retryLoop false (fun _ => (false, connDetail)) 3 0 3 = some out ∧
      send_email_with_retry false (fun _ => (false, connDetail)) 3 = out :=
  ⟨by decide, claim9_loop_always_returns false (fun _ => (false, connDetail)) 3 (by decide)⟩

/-- C7: with `dry_run` set, `send_email` returns success with the fixed
detail "DRY RUN - Email not sent" and opens zero transport sessions, and
`send_email_with_retry` returns that success on the first attempt with
no backoff sleeps and zero transport sessions, for any transport
behaviour and any `max_retries >= 1`. -/
theorem claim7_dry_run (outcome : Bool × Str) (outs : Nat → Bool × Str) (m : Nat)
    (h : 1 ≤ m) :
    send_email true outcome = ((true, dryMarker), 0) ∧
    send_email_with_retry true outs m = ⟨true, dryMarker, 1, [], 0⟩ :=
  ⟨rfl, sendRetry_dry outs m h⟩

theorem claim7_witness :
    1 ≤ 3 ∧
    (send_email true (false, authDetail) = ((true, dryMarker), 0) ∧
     send_email_with_retry true (fun _ => (false, authDetail)) 3 = ⟨true, dryMarker, 1, [], 0⟩) :=
  ⟨by decide, claim7_dry_run (false, authDetail) (fun _ => (false, authDetail)) 3 (by decide)⟩

/-- C1 (code bug evaluation): with a transport that reports an
authentication failure on every attempt — producing the Spanish detail
string of `send_email`'s `except smtplib.SMTPAuthenticationError` branch
— the non-retry classification of `send_email_with_retry` does not fire
(`infoNonRetryable` is false: the detail contains neither
"Authentication" nor "auth"/"recipient"/"address" in lower case), so the
call performs all 3 attempts, sleeps 5 s and 10 s, and returns the
"Failed after 3 attempts" wrapper — not the immediate single-attempt
return the claim (and the code's own comment) describes. -/
theorem claim1_auth_code_eval :
    infoNonRetryable authDetail = false ∧
    send_email_with_retry false (fun _ => (false, authDetail)) 3 =
      ⟨false, failedAfter 3 authDetail, 3, [5, 10], 3⟩ := by decide

/-- C4: with a transport that fails retryably on the first two attempts,
`send_email_with_retry` (max_retries = 3) returns success after exactly
3 attempts when the third succeeds, having slept 5 s then 10 s; and when
all three attempts fail retryably it returns failure with detail
"Failed after 3 attempts: " followed by the last detail, same attempts
and sleeps. -/
theorem claim4_backoff (outs : Nat → Bool × Str)
    (h0 : (outs 0).1 = false) (h0r : infoNonRetryable (outs 0).2 = false)
    (h1 : (outs 1).1 = false) (h1r : infoNonRetryable (outs 1).2 = false) :
    ((outs 2).1 = true →
      send_email_with_retry false outs 3 = ⟨true, (outs 2).2, 3, [5, 10], 3⟩) ∧
    ((outs 2).1 = false → infoNonRetryable (outs 2).2 = false →
      send_email_with_retry false outs 3 = ⟨false, failedAfter 3 (outs 2).2, 3, [5, 10], 3⟩) := by
  constructor
  · intro h2
    have e2 : retryLoop false outs 3 2 1 = some ⟨true, (outs 2).2, 3, [], 1⟩ := by
      rw [show (1 : Nat) = 0 + 1 from rfl, retryLoop_succ]
      simp [send_email_live, h2]
    have e1 : retryLoop false outs 3 1 2 = some ⟨true, (outs 2).2, 3, [10], 2⟩ := by
      rw [show (2 : Nat) = 1 + 1 from rfl, retryLoop_succ]
      simp [send_email_live, h1, h1r, e2]
    have e0 : retryLoop false outs 3 0 3 = some ⟨true, (outs 2).2, 3, [5, 10], 3⟩ := by
      rw [show (3 : Nat) = 2 + 1 from rfl, retryLoop_succ]
      simp [send_email_live, h0, h0r, e1]
    unfold send_email_with_retry
    rw [e0]
    rfl
  · intro h2 h2r
    have e2 : retryLoop false outs 3 2 1 =
        some ⟨false, failedAfter 3 (outs 2).2, 3, [], 1⟩ := by
      rw [show (1 : Nat) = 0 + 1 from rfl, retryLoop_succ]
      simp [send_email_live, h2, h2r]
    have e1 : retryLoop false outs 3 1 2 =
        some ⟨false, failedAfter 3 (outs 2).2, 3, [10], 2⟩ := by
      rw [show (2 : Nat) = 1 + 1 from rfl, retryLoop_succ]
      simp [send_email_live, h1, h1r, e2]
    have e0 : retryLoop false outs 3 0 3 =
        some ⟨false, failedAfter 3 (outs 2).2, 3, [5, 10], 3⟩ := by
      rw [show (3 : Nat) = 2 + 1 from rfl, retryLoop_succ]
      simp [send_email_live, h0, h0r, e1]
    unfold send_email_with_retry
    rw [e0]
    rfl

theorem claim4_witness :
    ((fun n => if n < 2 then (false, connDetail) else (true, asStr ("Email sent successfully")) : Nat → Bool × Str) 0).1 = false ∧
    send_email_with_retry false
      (fun n => if n < 2 then (false, connDetail) else (true, asStr ("Email sent successfully"))) 3 =
      ⟨true, asStr ("Email sent successfully"), 3, [5, 10], 3⟩ :=
  ⟨by decide,
   ((claim4_backoff (fun n => if n < 2 then (false, connDetail) else (true, asStr ("Email sent successfully")))
      (by decide) (by decide) (by decide) (by decide)).1 (by decide))⟩

/-- C5: a contact row whose status field, after trimming and upper-casing,
equals "SENT" or "SKIP" is excluded by the filter step and produces no
log entry: filtering the list with the row at its head equals filtering
the remaining rows (at the next index) unchanged — same selected
contacts, same log. -/
theorem claim5_status_skip (fromRow : Int) (maxN : Option Int) (resolve : Str → Bool)
    (now : Str) (idx cnt : Nat) (c : Contact) (rest : List Contact)
    (h : strUpper (pyStrip c.status) = asStr ("SENT") ∨
         strUpper (pyStrip c.status) = asStr ("SKIP")) :
    filterContacts fromRow maxN resolve now idx cnt (c :: rest) =
      filterContacts fromRow maxN resolve now (idx + 1) cnt rest := by
  have hs : statusSkip c.status = true := by
    unfold statusSkip
    rcases h with h | h <;> simp [h]
  by_cases hf : (idx : Int) < fromRow
  · simp [filterContacts, hf]
  · simp [filterContacts, hf, hs]

theorem claim5_witness :
    (strUpper (pyStrip (asStr ("  sent "))) = asStr ("SENT") ∨
     strUpper (pyStrip (asStr ("  sent "))) = asStr ("SKIP")) ∧
    filterContacts 0 none (fun _ => true) []
        0 0 [⟨asStr ("a@b.it"), [], [], [], [], asStr ("  sent "), []⟩] =
      filterContacts 0 none (fun _ => true) [] 1 0 [] :=
  ⟨Or.inl (by decide),
   claim5_status_skip 0 none (fun _ => true) [] 0 0
     ⟨asStr ("a@b.it"), [], [], [], [], asStr ("  sent "), []⟩ [] (Or.inl (by decide))⟩

/-- C6: a contact that reaches e-mail validation (index not skipped,
status not SENT/SKIP) and fails it produces exactly one log entry — with
status "ERROR" and info "Invalid email format" — is excluded from the
selected contacts, and filtering continues with the remaining rows: the
result is exactly the result for the remaining rows with that single
entry prepended to the log (the statistics of the send loop are computed
from the selected contacts only, so the row is not counted). -/
theorem claim6_invalid_email (fromRow : Int) (maxN : Option Int) (resolve : Str → Bool)
    (now : Str) (idx cnt : Nat) (c : Contact) (rest : List Contact)
    (hrow : ¬ ((idx : Int) < fromRow)) (hstat : statusSkip c.status = false)
    (hval : validate_email resolve c.email = false) :
    filterContacts fromRow maxN resolve now idx cnt (c :: rest) =
      ((filterContacts fromRow maxN resolve now (idx + 1) cnt rest).1,
       invalidLog now c :: (filterContacts fromRow maxN resolve now (idx + 1) cnt rest).2) ∧
    (invalidLog now c).status = asStr ("ERROR") ∧
    (invalidLog now c).info = asStr ("Invalid email format") := by
  refine ⟨?_, rfl, rfl⟩
  simp [filterContacts, hrow, hstat, hval]

theorem claim6_witness :
    (¬ (((0 : Nat) : Int) < 0)) ∧
    statusSkip [] = false ∧
    validate_email (fun _ => true) (asStr ("not-an-email")) = false ∧
    (filterContacts 0 none (fun _ => true) (asStr ("t0")) 0 0
        [⟨asStr ("not-an-email"), asStr ("H"), asStr ("R"), asStr ("N"), [], [], []⟩,
         ⟨asStr ("b@ok.it"), [], [], [], [], [], []⟩] =
      ((filterContacts 0 none (fun _ => true) (asStr ("t0")) 1 0
          [⟨asStr ("b@ok.it"), [], [], [], [], [], []⟩]).1,
       invalidLog (asStr ("t0"))
           ⟨asStr ("not-an-email"), asStr ("H"), asStr ("R"), asStr ("N"), [], [], []⟩ ::
         (filterContacts 0 none (fun _ => true) (asStr ("t0")) 1 0
            [⟨asStr ("b@ok.it"), [], [], [], [], [], []⟩]).2) ∧
     (invalidLog (asStr ("t0"))
         ⟨asStr ("not-an-email"), asStr ("H"), asStr ("R"), asStr ("N"), [], [], []⟩).status =
       asStr ("ERROR") ∧
     (invalidLog (asStr ("t0"))
         ⟨asStr ("not-an-email"), asStr ("H"), asStr ("R"), asStr ("N"), [], [], []⟩).info =
       asStr ("Invalid email format")) :=
  ⟨by decide, by decide, by decide,
   claim6_invalid_email 0 none (fun _ => true) (asStr ("t0")) 0 0
     ⟨asStr ("not-an-email"), asStr ("H"), asStr ("R"), asStr ("N"), [], [], []⟩
     [⟨asStr ("b@ok.it"), [], [], [], [], [], []⟩]
     (by decide) (by decide) (by decide)⟩

/-- C2 counterexample: with a single contact whose status is "SENT",
nothing qualifies for sending, and `main` exits with status 0 — the
`sys.exit(0)` of `send_mail_merge.py:484` — not with a non-zero status
as the claim states. -/
theorem claim2_counterexample :
    (filterContacts 0 none (fun _ => true) []
        0 0 [⟨asStr ("a@b.it"), [], [], [], [], asStr ("SENT"), []⟩]).1 = [] ∧
    (mainRun 0 none (fun _ => true) false false (fun _ _ => (true, []))
        [] [] [] [⟨asStr ("a@b.it"), [], [], [], [], asStr ("SENT"), []⟩]).exit = 0 := by
  decide

/-- C2 amended: when, after filtering (from-row skip, SENT/SKIP status
skip, e-mail validation, max limit), no contacts qualify for sending,
the process terminates with exit status zero, having sent nothing,
counted nothing and not rewritten the contacts file. -/
theorem claim2_amended (fromRow : Int) (maxN : Option Int) (resolve : Str → Bool)
    (dry upd : Bool) (outs : Nat → Nat → Bool × Str)
    (now sentStamp logStamp : Str) (contacts : List Contact)
    (h : (filterContacts fromRow maxN resolve now 0 0 contacts).1 = []) :
    mainRun fromRow maxN resolve dry upd outs now sentStamp logStamp contacts =
      ⟨0, contacts, (filterContacts fromRow maxN resolve now 0 0 contacts).2,
       ⟨0, 0, 0⟩, false⟩ := by
  unfold mainRun
  simp [h]

theorem claim2_amended_witness :
    (filterContacts 0 none (fun _ => true) []
        0 0 [⟨asStr ("a@b.it"), [], [], [], [], asStr ("SKIP"), []⟩]).1 = [] ∧
    mainRun 0 none (fun _ => true) true true (fun _ _ => (true, []))
        [] [] [] [⟨asStr ("a@b.it"), [], [], [], [], asStr ("SKIP"), []⟩] =
      ⟨0, [⟨asStr ("a@b.it"), [], [], [], [], asStr ("SKIP"), []⟩],
       (filterContacts 0 none (fun _ => true) []
          0 0 [⟨asStr ("a@b.it"), [], [], [], [], asStr ("SKIP"), []⟩]).2,
       ⟨0, 0, 0⟩, false⟩ :=
  ⟨by decide,
   claim2_amended 0 none (fun _ => true) true true (fun _ _ => (true, [])) [] [] []
     [⟨asStr ("a@b.it"), [], [], [], [], asStr ("SKIP"), []⟩] (by decide)⟩

/-- C8: for a contact whose contact_name is empty after trimming, the
generic fallback greeting is substituted into the render context (its
"contact_name" entry), while the composed message carries the bare
recipient address with no display name; and `create_email_message` sets
a recipient display name exactly when the `to_name` it is passed is
non-empty. -/
theorem claim8_display_name (subjT htmlT senderName today : Str) (c : Contact)
    (h : pyStrip c.contact_name = []) :
    (contactContext senderName today c).head? = some (asStr ("contact_name"), genericName) ∧
    (composeMessage subjT htmlT senderName today c).toHdr = ToField.bare c.email ∧
    (∀ s hb te tn : Str, tn ≠ [] →
      (create_email_message s hb te tn).toHdr = ToField.withName tn te) ∧
    (∀ s hb te : Str, (create_email_message s hb te []).toHdr = ToField.bare te) := by
  have hname : effContactName c = genericName := by
    unfold effContactName
    rw [if_pos h]
  refine ⟨?_, ?_, ?_, ?_⟩
  · simp [contactContext, hname]
  · have harg : toNameArg c = [] := by
      unfold toNameArg
      rw [hname]
      simp
    simp [composeMessage, create_email_message, harg]
  · intro s hb te tn htn
    cases tn with
    | nil => exact absurd rfl htn
    | cons a t => simp [create_email_message]
  · intro s hb te
    simp [create_email_message]

theorem claim8_witness :
    pyStrip (asStr ("   ")) = [] ∧
    ((contactContext (asStr ("S")) (asStr ("D"))
        ⟨asStr ("a@b.it"), asStr ("H"), asStr ("R"), asStr ("   "), [], [], []⟩).head? =
      some (asStr ("contact_name"), genericName) ∧
     (composeMessage [] [] (asStr ("S")) (asStr ("D"))
        ⟨asStr ("a@b.it"), asStr ("H"), asStr ("R"), asStr ("   "), [], [], []⟩).toHdr =
      ToField.bare (asStr ("a@b.it")) ∧
     (∀ s hb te tn : Str, tn ≠ [] →
       (create_email_message s hb te tn).toHdr = ToField.withName tn te) ∧
     (∀ s hb te : Str, (create_email_message s hb te []).toHdr = ToField.bare te)) := by
  refine ⟨by decide, ?_⟩
  have := claim8_display_name [] [] (asStr ("S")) (asStr ("D"))
    ⟨asStr ("a@b.it"), asStr ("H"), asStr ("R"), asStr ("   "), [], [], []⟩ (by decide)
  simpa using this

theorem sendLoop_dry_char (outs : Nat → Nat → Bool × Str) (sentStamp logStamp : Str) :
    ∀ (ts : List (Nat × Contact)) (cs : List Contact) (stats : RunStats)
      (logs : List LogEntry) (k : Nat),
      sendLoop true true outs sentStamp logStamp cs stats logs k ts =
        (ts.foldl (fun cs p => updateNth (markSent sentStamp) cs p.1) cs,
         ⟨stats.sent + ts.length, stats.failed, stats.skipped⟩,
         logs ++ ts.map (fun p => successLog true logStamp p.2 dryMarker)) := by
  intro ts
  induction ts with
  | nil => intro cs stats logs k; simp [sendLoop]
  | cons p rest ih =>
    intro cs stats logs k
    obtain ⟨i, c⟩ := p
    have hr : send_email_with_retry true (outs k) 3 = ⟨true, dryMarker, 1, [], 0⟩ :=
      sendRetry_dry (outs k) 3 (by omega)
    simp only [sendLoop, hr]
    rw [ih]
    simp [List.foldl_cons]
    omega

theorem updateNth_get_ne (f : Contact → Contact) :
    ∀ (cs : List Contact) (i j : Nat), i ≠ j → (updateNth f cs i)[j]? = cs[j]? := by
  intro cs
  induction cs with
  | nil => intro i j _; simp [updateNth]
  | cons c rest ih =>
    intro i j hij
    cases i with
    | zero =>
      cases j with
      | zero => exact absurd rfl hij
      | succ j => simp [updateNth]
    | succ i =>
      cases j with
      | zero => simp [updateNth]
      | succ j =>
        simp only [updateNth, List.getElem?_cons_succ]
        exact ih i j (by omega)

theorem updateNth_get_eq (f : Contact → Contact) :
    ∀ (cs : List Contact) (i : Nat), (updateNth f cs i)[i]? = (cs[i]?).map f := by
  intro cs
  induction cs with
  | nil => intro i; simp [updateNth]
  | cons c rest ih =>
    intro i
    cases i with
    | zero => simp [updateNth]
    | succ i => simp only [updateNth, List.getElem?_cons_succ]; exact ih i

theorem foldl_update_not_mem (sentStamp : Str) :
    ∀ (ts : List (Nat × Contact)) (cs : List Contact) (i : Nat),
      i ∉ ts.map Prod.fst →
      (ts.foldl (fun cs p => updateNth (markSent sentStamp) cs p.1) cs)[i]? = cs[i]? := by
  intro ts
  induction ts with
  | nil => intro cs i _; rfl
  | cons p rest ih =>
    intro cs i hi
    simp only [List.map_cons, List.mem_cons] at hi
    push_neg at hi
    rw [List.foldl_cons, ih _ i hi.2, updateNth_get_ne _ _ _ _ (fun hh => hi.1 hh.symm)]

theorem foldl_update_mem (sentStamp : Str) :
    ∀ (ts : List (Nat × Contact)) (cs : List Contact),
      (ts.map Prod.fst).Nodup →
      ∀ (i : Nat) (c : Contact), (i, c) ∈ ts →
        (ts.foldl (fun cs p => updateNth (markSent sentStamp) cs p.1) cs)[i]? =
          (cs[i]?).map (markSent sentStamp) := by
  intro ts
  induction ts with
  | nil => intro cs _ i c h; simp at h
  | cons p rest ih =>
    intro cs hnd i c hmem
    obtain ⟨j, d⟩ := p
    simp only [List.map_cons, List.nodup_cons] at hnd
    rcases List.mem_cons.mp hmem with heq | hrest
    · obtain ⟨h1, h2⟩ := Prod.ext_iff.mp heq
      dsimp only at h1 h2
      subst h1
      subst h2
      rw [List.foldl_cons,
          foldl_update_not_mem sentStamp rest _ i hnd.1,
          updateNth_get_eq]
    · have hij : i ≠ j := by
        intro hh
        subst hh
        exact hnd.1 (List.mem_map.mpr ⟨(i, c), hrest, rfl⟩)
      rw [List.foldl_cons, ih _ hnd.2 i c hrest,
          updateNth_get_ne _ _ _ _ (fun hh => hij hh.symm)]

/-- C10: when both dry-run and update-contacts are on and a contact is
selected by the filter, the simulated send succeeds, the contact's
status is set in memory to "SENT" (not "DRY_RUN") with `sent_at` filled,
the log entry written for it has status "DRY_RUN", the sent counter is
at least one, and therefore the contacts file is rewritten at the end of
the run (`csvSaved`) — so a dry run marks contacts as SENT for later
real runs to skip. -/
theorem claim10_dry_update (fromRow : Int) (maxN : Option Int) (resolve : Str → Bool)
    (outs : Nat → Nat → Bool × Str) (now sentStamp logStamp : Str)
    (contacts : List Contact) (i : Nat) (c : Contact)
    (hmem : (i, c) ∈ (filterContacts fromRow maxN resolve now 0 0 contacts).1)
    (hnd : ((filterContacts fromRow maxN resolve now 0 0 contacts).1.map Prod.fst).Nodup)
    (hget : contacts[i]? = some c) :
    (mainRun fromRow maxN resolve true true outs now sentStamp logStamp contacts).contacts[i]? =
      some { c with status := asStr ("SENT"), sent_at := sentStamp } ∧
    (mainRun fromRow maxN resolve true true outs now sentStamp logStamp contacts).csvSaved = true ∧
    successLog true logStamp c dryMarker ∈
      (mainRun fromRow maxN resolve true true outs now sentStamp logStamp contacts).logs ∧
    (successLog true logStamp c dryMarker).status = asStr ("DRY_RUN") ∧
    1 ≤ (mainRun fromRow maxN resolve true true outs now sentStamp logStamp contacts).stats.sent := by
  have hne : (filterContacts fromRow maxN resolve now 0 0 contacts).1 ≠ [] :=
    List.ne_nil_of_mem hmem
  have hlen : 1 ≤ (filterContacts fromRow maxN resolve now 0 0 contacts).1.length := by
    cases hcase : (filterContacts fromRow maxN resolve now 0 0 contacts).1 with
    | nil => exact absurd hcase hne
    | cons a l => simp
  have hempty : (filterContacts fromRow maxN resolve now 0 0 contacts).1.isEmpty = false := by
    cases hcase : (filterContacts fromRow maxN resolve now 0 0 contacts).1 with
    | nil => exact absurd hcase hne
    | cons a l => rfl
  simp only [mainRun, hempty, Bool.false_eq_true, if_false,
    sendLoop_dry_char outs sentStamp logStamp _ contacts ⟨0, 0, 0⟩ _ 0]
  refine ⟨?_, ?_, ?_, rfl, ?_⟩
  · rw [foldl_update_mem sentStamp _ contacts hnd i c hmem, hget]
    rfl
  · simp
    omega
  · exact List.mem_append.mpr (Or.inr (List.mem_map.mpr ⟨(i, c), hmem, rfl⟩))
  · simpa using hlen

theorem claim10_witness :
    ((0, (⟨asStr ("a@b.it"), asStr ("H"), asStr ("R"), asStr ("N"), [], [], []⟩ : Contact)) ∈
      (filterContacts 0 none (fun _ => true) (asStr ("t0")) 0 0
        [⟨asStr ("a@b.it"), asStr ("H"), asStr ("R"), asStr ("N"), [], [], []⟩]).1) ∧
    ((mainRun 0 none (fun _ => true) true true (fun _ _ => (true, [])) (asStr ("t0"))
        (asStr ("s1")) (asStr ("l1"))
        [⟨asStr ("a@b.it"), asStr ("H"), asStr ("R"), asStr ("N"), [], [], []⟩]).contacts[0]? =
      some { (⟨asStr ("a@b.it"), asStr ("H"), asStr ("R"), asStr ("N"), [], [], []⟩ : Contact) with
              status := asStr ("SENT"), sent_at := asStr ("s1") } ∧
     (mainRun 0 none (fun _ => true) true true (fun _ _ => (true, [])) (asStr ("t0"))
        (asStr ("s1")) (asStr ("l1"))
        [⟨asStr ("a@b.it"), asStr ("H"), asStr ("R"), asStr ("N"), [], [], []⟩]).csvSaved = true ∧
     successLog true (asStr ("l1"))
         ⟨asStr ("a@b.it"), asStr ("H"), asStr ("R"), asStr ("N"), [], [], []⟩ dryMarker ∈
       (mainRun 0 none (fun _ => true) true true (fun _ _ => (true, [])) (asStr ("t0"))
          (asStr ("s1")) (asStr ("l1"))
          [⟨asStr ("a@b.it"), asStr ("H"), asStr ("R"), asStr ("N"), [], [], []⟩]).logs ∧
     (successLog true (asStr ("l1"))
         ⟨asStr ("a@b.it"), asStr ("H"), asStr ("R"), asStr ("N"), [], [], []⟩ dryMarker).status =
       asStr ("DRY_RUN") ∧
     1 ≤ (mainRun 0 none (fun _ => true) true true (fun _ _ => (true, [])) (asStr ("t0"))
            (asStr ("s1")) (asStr ("l1"))
            [⟨asStr ("a@b.it"), asStr ("H"), asStr ("R"), asStr ("N"), [], [], []⟩]).stats.sent) :=
  ⟨by decide,
   claim10_dry_update 0 none (fun _ => true) (fun _ _ => (true, [])) (asStr ("t0"))
     (asStr ("s1")) (asStr ("l1"))
     [⟨asStr ("a@b.it"), asStr ("H"), asStr ("R"), asStr ("N"), [], [], []⟩] 0
     ⟨asStr ("a@b.it"), asStr ("H"), asStr ("R"), asStr ("N"), [], [], []⟩
     (by decide) (by decide) (by decide)⟩

theorem repl_skip_openFree (k rep : Str) :
    ∀ (l t : Str), (∀ c ∈ l, c ≠ '{') →
      repl (placeholder k) rep (l ++ t) = l ++ repl (placeholder k) rep t := by
  intro l
  induction l with
  | nil => intro t _; simp
  | cons c l ih =>
    intro t hl
    have hc : c ≠ '{' := hl c (List.mem_cons_self c l)
    have hnp : (placeholder k).isPrefixOf (c :: (l ++ t)) = false := by
      show (('{' == c) && (('{' :: (k ++ ['}', '}'])).isPrefixOf (l ++ t))) = false
      have hbc : ('{' == c) = false := beq_eq_false_iff_ne.mpr (Ne.symm hc)
      rw [hbc, Bool.false_and]
    rw [List.cons_append, repl_cons_nomatch _ _ _ _ hnp,
        ih t (fun d hd => hl d (List.mem_cons_of_mem c hd)), List.cons_append]

theorem repl_head_match (k rep t : Str) :
    repl (placeholder k) rep (placeholder k ++ t) = rep ++ repl (placeholder k) rep t := by
  have hshape : placeholder k ++ t = '{' :: (('{' :: (k ++ ['}', '}'])) ++ t) := by
    simp [placeholder]
  rw [hshape, repl_cons_match _ _ _ _ (by
    rw [← hshape]; exact isPrefixOf_self_append (placeholder k) t)]
  congr 1
  have hlen : (placeholder k).length - 1 = ('{' :: (k ++ ['}', '}'])).length := by
    simp [placeholder]
  rw [hlen, List.drop_left]

theorem braceFree_mem {k : Str} (h : braceFree k = true) {c : Char} (hc : c ∈ k) :
    c ≠ '{' ∧ c ≠ '}' := by
  unfold braceFree at h
  simpa using List.all_eq_true.mp h c hc

theorem openFree_mem {k : Str} (h : openFree k = true) {c : Char} (hc : c ∈ k) :
    c ≠ '{' := by
  unfold openFree at h
  simpa using List.all_eq_true.mp h c hc

theorem braceFree_cons {a : Char} {k : Str} (h : braceFree (a :: k) = true) :
    braceFree k = true := by
  unfold braceFree at h ⊢
  simp only [List.all_cons, Bool.and_eq_true] at h
  exact h.2

theorem key_prefix_false :
    ∀ (k k2 t : Str), braceFree k = true → braceFree k2 = true → k ≠ k2 →
      (k ++ ['}', '}']).isPrefixOf ((k2 ++ ['}', '}']) ++ t) = false := by
  intro k
  induction k with
  | nil =>
    intro k2 t _ hb2 hne
    cases k2 with
    | nil => exact absurd rfl hne
    | cons b k2' =>
      show (('}' == b) && (['}'].isPrefixOf ((k2' ++ ['}', '}']) ++ t))) = false
      rw [beq_eq_false_iff_ne.mpr (Ne.symm (braceFree_mem hb2 (List.mem_cons_self b k2')).2),
          Bool.false_and]
  | cons a k' ih =>
    intro k2 t hb hb2 hne
    cases k2 with
    | nil =>
      show ((a == '}') && ((k' ++ ['}', '}']).isPrefixOf ('}' :: t))) = false
      rw [beq_eq_false_iff_ne.mpr ((braceFree_mem hb (List.mem_cons_self a k')).2),
          Bool.false_and]
    | cons b k2' =>
      show ((a == b) && ((k' ++ ['}', '}']).isPrefixOf ((k2' ++ ['}', '}']) ++ t))) = false
      by_cases hab : a = b
      · subst hab
        rw [ih k2' t (braceFree_cons hb) (braceFree_cons hb2)
              (fun hh => hne (by rw [hh])), Bool.and_false]
      · rw [beq_eq_false_iff_ne.mpr hab, Bool.false_and]

theorem repl_skip_other_hole (k k2 rep : Str) (hb : braceFree k = true)
    (hb2 : braceFree k2 = true) (hne : k ≠ k2) (t : Str) :
    repl (placeholder k) rep (placeholder k2 ++ t) =
      placeholder k2 ++ repl (placeholder k) rep t := by
  have hshape : placeholder k2 ++ t = '{' :: ('{' :: ((k2 ++ ['}', '}']) ++ t)) := by
    simp [placeholder]
  have h0 : (placeholder k).isPrefixOf ('{' :: ('{' :: ((k2 ++ ['}', '}']) ++ t))) = false := by
    show (('{' == '{') &&
      (('{' == '{') && ((k ++ ['}', '}']).isPrefixOf ((k2 ++ ['}', '}']) ++ t)))) = false
    rw [key_prefix_false k k2 t hb hb2 hne]
    simp
  have h1 : (placeholder k).isPrefixOf ('{' :: ((k2 ++ ['}', '}']) ++ t)) = false := by
    cases k2 with
    | nil =>
      show (('{' == '{') && (('{' == '}') && (k ++ ['}', '}']).isPrefixOf ('}' :: t))) = false
      simp
    | cons b k2' =>
      show (('{' == '{') &&
        (('{' == b) && (k ++ ['}', '}']).isPrefixOf ((k2' ++ ['}', '}']) ++ t))) = false
      rw [beq_eq_false_iff_ne.mpr (Ne.symm (braceFree_mem hb2 (List.mem_cons_self b k2')).1)]
      simp
  have hl : ∀ c ∈ (k2 ++ ['}', '}']), c ≠ '{' := by
    intro c hc
    rcases List.mem_append.mp hc with h | h
    · exact (braceFree_mem hb2 h).1
    · intro he
      subst he
      simp at h
  rw [hshape, repl_cons_nomatch _ _ _ _ h0, repl_cons_nomatch _ _ _ _ h1,
      repl_skip_openFree k rep (k2 ++ ['}', '}']) t hl]
  simp [placeholder]

theorem repl_flat (k v : Str) (hb : braceFree k = true) :
    ∀ (segs : List Seg), segsOk segs = true →
      repl (placeholder k) v (flat segs) = flat (fillOne k v segs) := by
  intro segs
  induction segs with
  | nil => intro _; rfl
  | cons s rest ih =>
    intro hok
    have hs : segOk s = true := by
      unfold segsOk at hok
      simpa using (List.all_eq_true.mp hok s (List.mem_cons_self s rest))
    have hrest : segsOk rest = true := by
      unfold segsOk at hok ⊢
      simp only [List.all_cons, Bool.and_eq_true] at hok
      exact hok.2
    cases s with
    | lit l =>
      have hl : ∀ c ∈ l, c ≠ '{' := fun c hc => openFree_mem hs hc
      show repl (placeholder k) v (l ++ flat rest) = l ++ flat (fillOne k v rest)
      rw [repl_skip_openFree k v l (flat rest) hl, ih hrest]
    | hole k2 =>
      by_cases hk : k2 = k
      · subst hk
        show repl (placeholder k2) v (placeholder k2 ++ flat rest) =
          flat (fillOne k2 v (Seg.hole k2 :: rest))
        rw [repl_head_match, ih hrest]
        simp [fillOne, flat]
      · show repl (placeholder k) v (placeholder k2 ++ flat rest) =
          flat (fillOne k v (Seg.hole k2 :: rest))
        rw [repl_skip_other_hole k k2 v hb hs (fun hh => hk hh.symm), ih hrest]
        simp [fillOne, flat, hk]

theorem segsOk_fillOne (k v : Str) (hv : openFree v = true) :
    ∀ (segs : List Seg), segsOk segs = true → segsOk (fillOne k v segs) = true := by
  intro segs
  induction segs with
  | nil => intro _; rfl
  | cons s rest ih =>
    intro hok
    unfold segsOk at hok ⊢
    simp only [List.all_cons, Bool.and_eq_true] at hok
    unfold fillOne
    simp only [List.map_cons, List.all_cons, Bool.and_eq_true]
    refine ⟨?_, ?_⟩
    · cases s with
      | lit l => exact hok.1
      | hole k2 =>
        by_cases hk : k2 = k
        · simp [hk, segOk, hv]
        · simp [hk]
          exact hok.1
    · have := ih hok.2
      unfold segsOk fillOne at this
      exact this

theorem hole_mem_fillOne {k2 k v : Str} {segs : List Seg}
    (h : Seg.hole k2 ∈ fillOne k v segs) : k2 ≠ k ∧ Seg.hole k2 ∈ segs := by
  unfold fillOne at h
  obtain ⟨s, hs, hgs⟩ := List.mem_map.mp h
  cases s with
  | lit l => simp at hgs
  | hole k3 =>
    by_cases hk : k3 = k
    · simp [hk] at hgs
    · simp [hk] at hgs
      subst hgs
      exact ⟨hk, hs⟩

theorem render_structured :
    ∀ (ctx : List (Str × Str)) (segs : List Seg),
      segsOk segs = true →
      (∀ kv ∈ ctx, braceFree kv.1 = true ∧ openFree kv.2 = true) →
      render_template (flat segs) ctx = flat (fillAll ctx segs) := by
  intro ctx
  induction ctx with
  | nil => intro segs _ _; rfl
  | cons kv ctx' ih =>
    intro segs hsegs hall
    obtain ⟨k, v⟩ := kv
    have hkv := hall (k, v) (List.mem_cons_self (k, v) ctx')
    show render_template (repl (placeholder k) v (flat segs)) ctx' =
      flat (fillAll ctx' (fillOne k v segs))
    rw [repl_flat k v hkv.1 segs hsegs]
    exact ih (fillOne k v segs) (segsOk_fillOne k v hkv.2 segs hsegs)
      (fun p hp => hall p (List.mem_cons_of_mem (k, v) hp))

theorem segsOk_fillAll :
    ∀ (ctx : List (Str × Str)) (segs : List Seg),
      (∀ kv ∈ ctx, openFree kv.2 = true) → segsOk segs = true →
      segsOk (fillAll ctx segs) = true := by
  intro ctx
  induction ctx with
  | nil => intro segs _ h; exact h
  | cons kv ctx' ih =>
    intro segs hall hsegs
    exact ih (fillOne kv.1 kv.2 segs)
      (fun p hp => hall p (List.mem_cons_of_mem kv hp))
      (segsOk_fillOne kv.1 kv.2 (hall kv (List.mem_cons_self kv ctx')) segs hsegs)

theorem lit_mem_fillOne_self {k : Str} (v : Str) {segs : List Seg}
    (h : Seg.hole k ∈ segs) : Seg.lit v ∈ fillOne k v segs := by
  unfold fillOne
  refine List.mem_map.mpr ⟨Seg.hole k, h, ?_⟩
  simp

theorem lit_mem_fillOne_other (k0 v0 : Str) {v : Str} {segs : List Seg}
    (h : Seg.lit v ∈ segs) : Seg.lit v ∈ fillOne k0 v0 segs := by
  unfold fillOne
  exact List.mem_map.mpr ⟨Seg.lit v, h, rfl⟩

theorem hole_mem_fillOne_ne (k0 v0 : Str) {k : Str} {segs : List Seg}
    (hk : k ≠ k0) (h : Seg.hole k ∈ segs) : Seg.hole k ∈ fillOne k0 v0 segs := by
  unfold fillOne
  refine List.mem_map.mpr ⟨Seg.hole k, h, ?_⟩
  simp [hk]

theorem lit_mem_fillAll_lit :
    ∀ (ctx : List (Str × Str)) (segs : List Seg) (v : Str),
      Seg.lit v ∈ segs → Seg.lit v ∈ fillAll ctx segs := by
  intro ctx
  induction ctx with
  | nil => intro segs v h; exact h
  | cons kv ctx' ih =>
    intro segs v h
    exact ih (fillOne kv.1 kv.2 segs) v (lit_mem_fillOne_other kv.1 kv.2 h)

theorem lit_mem_fillAll :
    ∀ (ctx : List (Str × Str)) (segs : List Seg) (k v : Str),
      (k, v) ∈ ctx → (ctx.map Prod.fst).Nodup → Seg.hole k ∈ segs →
      Seg.lit v ∈ fillAll ctx segs := by
  intro ctx
  induction ctx with
  | nil => intro segs k v h _ _; simp at h
  | cons kv ctx' ih =>
    intro segs k v hmem hnd hk
    simp only [List.map_cons, List.nodup_cons] at hnd
    rcases List.mem_cons.mp hmem with heq | hrest
    · subst heq
      show Seg.lit v ∈ fillAll ctx' (fillOne k v segs)
      exact lit_mem_fillAll_lit ctx' (fillOne k v segs) v (lit_mem_fillOne_self v hk)
    · have hne : k ≠ kv.1 := fun hh =>
        hnd.1 (List.mem_map.mpr ⟨(k, v), hrest, by rw [hh]⟩)
      exact ih (fillOne kv.1 kv.2 segs) k v hrest hnd.2
        (hole_mem_fillOne_ne kv.1 kv.2 hne hk)

theorem flat_occurs_of_lit_mem :
    ∀ (segs : List Seg) (v : Str), Seg.lit v ∈ segs → occurs v (flat segs) = true := by
  intro segs
  induction segs with
  | nil => intro v h; simp at h
  | cons s rest ih =>
    intro v h
    rcases List.mem_cons.mp h with heq | hrest
    · subst heq
      show occurs v (v ++ flat rest) = true
      exact occurs_self_append v (flat rest)
    · cases s with
      | lit l => exact occurs_append_left v l (flat rest) (ih v hrest)
      | hole k2 => exact occurs_append_left v (placeholder k2) (flat rest) (ih v hrest)

theorem fillOne_comm (k1 v1 k2 v2 : Str) (hne : k1 ≠ k2) :
    ∀ segs, fillOne k1 v1 (fillOne k2 v2 segs) = fillOne k2 v2 (fillOne k1 v1 segs) := by
  intro segs
  unfold fillOne
  rw [List.map_map, List.map_map]
  congr 1
  funext s
  cases s with
  | lit l => rfl
  | hole k3 =>
    by_cases h2 : k3 = k2
    · subst h2
      have h31 : k3 ≠ k1 := fun hh => hne hh.symm
      simp [Function.comp, h31]
    · by_cases h1 : k3 = k1
      · subst h1
        simp [Function.comp, h2, hne]
      · simp [Function.comp, h1, h2]

theorem fillAll_perm :
    ∀ {ctx1 ctx2 : List (Str × Str)}, ctx1.Perm ctx2 → (ctx1.map Prod.fst).Nodup →
      ∀ segs, fillAll ctx1 segs = fillAll ctx2 segs := by
  intro ctx1 ctx2 hperm
  induction hperm with
  | nil => intro _ _; rfl
  | cons x p ih =>
    intro hnd segs
    simp only [List.map_cons, List.nodup_cons] at hnd
    show fillAll _ (fillOne x.1 x.2 segs) = fillAll _ (fillOne x.1 x.2 segs)
    exact ih hnd.2 _
  | swap x y l =>
    intro hnd segs
    simp only [List.map_cons, List.nodup_cons, List.mem_cons] at hnd
    have hxy : x.1 ≠ y.1 := fun hh => hnd.1 (Or.inl hh.symm)
    show fillAll l (fillOne x.1 x.2 (fillOne y.1 y.2 segs)) =
      fillAll l (fillOne y.1 y.2 (fillOne x.1 x.2 segs))
    rw [fillOne_comm x.1 x.2 y.1 y.2 hxy segs]
  | trans p1 p2 ih1 ih2 =>
    intro hnd segs
    rw [ih1 hnd segs, ih2 (((p1.map Prod.fst).nodup_iff).mp hnd) segs]

theorem ctxOk_nodup {ctx : List (Str × Str)} (h : ctxOk ctx = true) :
    (ctx.map Prod.fst).Nodup := by
  unfold ctxOk at h
  simp only [Bool.and_eq_true, decide_eq_true_eq] at h
  exact h.1

theorem ctxOk_kv {ctx : List (Str × Str)} (h : ctxOk ctx = true)
    {kv : Str × Str} (hkv : kv ∈ ctx) :
    braceFree kv.1 = true ∧ openFree kv.2 = true := by
  unfold ctxOk at h
  simp only [Bool.and_eq_true, decide_eq_true_eq, List.all_eq_true] at h
  simpa using h.2 kv hkv

theorem keysUsed_mem {sg : List Seg} {ctx : List (Str × Str)} {kv : Str × Str}
    (h : keysUsed sg ctx = true) (hkv : kv ∈ ctx) : Seg.hole kv.1 ∈ sg := by
  unfold keysUsed at h
  simpa using List.all_eq_true.mp h kv hkv

theorem occurs_ph_append_openFree (k : Str) :
    ∀ (l t : Str), (∀ c ∈ l, c ≠ '{') →
      occurs (placeholder k) (l ++ t) = occurs (placeholder k) t := by
  intro l
  induction l with
  | nil => intro t _; rfl
  | cons c l ih =>
    intro t hl
    have hc : c ≠ '{' := hl c (List.mem_cons_self c l)
    have hp : (placeholder k).isPrefixOf (c :: (l ++ t)) = false := by
      show (('{' == c) && (('{' :: (k ++ ['}', '}'])).isPrefixOf (l ++ t))) = false
      rw [beq_eq_false_iff_ne.mpr (Ne.symm hc), Bool.false_and]
    show ((placeholder k).isPrefixOf (c :: (l ++ t)) ||
          occurs (placeholder k) (l ++ t)) = occurs (placeholder k) t
    rw [hp, Bool.false_or, ih t (fun d hd => hl d (List.mem_cons_of_mem c hd))]

theorem occurs_ph_skip_hole (k k2 : Str) (hb : braceFree k = true)
    (hb2 : braceFree k2 = true) (hne : k ≠ k2) (t : Str) :
    occurs (placeholder k) (placeholder k2 ++ t) = occurs (placeholder k) t := by
  have hshape : placeholder k2 ++ t = '{' :: ('{' :: ((k2 ++ ['}', '}']) ++ t)) := by
    simp [placeholder]
  have h0 : (placeholder k).isPrefixOf ('{' :: ('{' :: ((k2 ++ ['}', '}']) ++ t))) = false := by
    show (('{' == '{') &&
      (('{' == '{') && ((k ++ ['}', '}']).isPrefixOf ((k2 ++ ['}', '}']) ++ t)))) = false
    rw [key_prefix_false k k2 t hb hb2 hne]
    simp
  have h1 : (placeholder k).isPrefixOf ('{' :: ((k2 ++ ['}', '}']) ++ t)) = false := by
    cases k2 with
    | nil =>
      show (('{' == '{') && (('{' == '}') && (k ++ ['}', '}']).isPrefixOf ('}' :: t))) = false
      simp
    | cons b k2' =>
      show (('{' == '{') &&
        (('{' == b) && (k ++ ['}', '}']).isPrefixOf ((k2' ++ ['}', '}']) ++ t))) = false
      rw [beq_eq_false_iff_ne.mpr (Ne.symm (braceFree_mem hb2 (List.mem_cons_self b k2')).1)]
      simp
  have hl : ∀ c ∈ (k2 ++ ['}', '}']), c ≠ '{' := by
    intro c hc
    rcases List.mem_append.mp hc with h | h
    · exact (braceFree_mem hb2 h).1
    · intro he
      subst he
      simp at h
  rw [hshape]
  show ((placeholder k).isPrefixOf ('{' :: ('{' :: ((k2 ++ ['}', '}']) ++ t))) ||
        ((placeholder k).isPrefixOf ('{' :: ((k2 ++ ['}', '}']) ++ t)) ||
         occurs (placeholder k) ((k2 ++ ['}', '}']) ++ t))) = occurs (placeholder k) t
  rw [h0, h1, Bool.false_or, Bool.false_or,
      occurs_ph_append_openFree k (k2 ++ ['}', '}']) t hl]

theorem occurs_ph_flat (k : Str) (hb : braceFree k = true) :
    ∀ (sg : List Seg), segsOk sg = true →
      (∀ k2, Seg.hole k2 ∈ sg → k2 ≠ k) →
      occurs (placeholder k) (flat sg) = false := by
  intro sg
  induction sg with
  | nil => intro _ _; rfl
  | cons s rest ih =>
    intro hok hnh
    have hs : segOk s = true := by
      unfold segsOk at hok
      simpa using List.all_eq_true.mp hok s (List.mem_cons_self s rest)
    have hrest : segsOk rest = true := by
      unfold segsOk at hok ⊢
      simp only [List.all_cons, Bool.and_eq_true] at hok
      exact hok.2
    cases s with
    | lit l =>
      show occurs (placeholder k) (l ++ flat rest) = false
      rw [occurs_ph_append_openFree k l (flat rest) (fun c hc => openFree_mem hs hc)]
      exact ih hrest (fun k2 hk2 => hnh k2 (List.mem_cons_of_mem _ hk2))
    | hole k2 =>
      have hne : k2 ≠ k := hnh k2 (List.mem_cons_self _ rest)
      show occurs (placeholder k) (placeholder k2 ++ flat rest) = false
      rw [occurs_ph_skip_hole k k2 hb hs (fun hh => hne hh.symm) (flat rest)]
      exact ih hrest (fun k3 hk3 => hnh k3 (List.mem_cons_of_mem _ hk3))

theorem hole_mem_fillAll_inv :
    ∀ (ctx : List (Str × Str)) (sg : List Seg) (k2 : Str),
      Seg.hole k2 ∈ fillAll ctx sg → k2 ∉ ctx.map Prod.fst ∧ Seg.hole k2 ∈ sg := by
  intro ctx
  induction ctx with
  | nil => intro sg k2 h; exact ⟨by simp, h⟩
  | cons kv ctx' ih =>
    intro sg k2 h
    obtain ⟨hnotin, hmem⟩ := ih (fillOne kv.1 kv.2 sg) k2 h
    obtain ⟨hne, hsrc⟩ := hole_mem_fillOne hmem
    refine ⟨?_, hsrc⟩
    intro hmem2
    simp only [List.map_cons] at hmem2
    rcases List.mem_cons.mp hmem2 with h1 | h2
    · exact hne h1
    · exact hnotin h2

/-- C3 counterexample: for the template "\x7b\x7b\x7b\x7ba\x7d\x7d\x7d\x7d"
and the context mapping key "a" to value "a", the key does occur in the
template as a placeholder (the claim's hypothesis holds), yet
`render_template` returns exactly "\x7b\x7ba\x7d\x7d", which still
contains the placeholder of "a" — refuting the claimed absence of
remaining placeholders: overlapping brace runs recreate a placeholder. -/
theorem claim3_counterexample :
    occurs (placeholder ['a']) ['{', '{', '{', '{', 'a', '}', '}', '}', '}'] = true ∧
    render_template ['{', '{', '{', '{', 'a', '}', '}', '}', '}'] [(['a'], ['a'])] =
      placeholder ['a'] ∧
    occurs (placeholder ['a'])
      (render_template ['{', '{', '{', '{', 'a', '}', '}', '}', '}'] [(['a'], ['a'])]) =
      true := by
  decide

/-- C3 amended: restricted to templates that decompose into brace-free
literal segments and placeholders (`flat segs` with `segsOk`), and to
contexts with distinct brace-free keys and opening-brace-free values,
each context key occurring in the template as a placeholder,
`render_template` leaves no occurrence of any context key's placeholder
— placeholders of keys outside the context may remain verbatim, and can
never form a context key's placeholder — contains the string form of
every context value, and is independent of the order of the context
entries. -/
theorem claim3_amended (segs : List Seg) (ctx : List (Str × Str))
    (hsegs : segsOk segs = true) (hctx : ctxOk ctx = true)
    (hused : keysUsed segs ctx = true) :
    (∀ kv ∈ ctx, occurs (placeholder kv.1) (render_template (flat segs) ctx) = false) ∧
    (∀ kv ∈ ctx, occurs kv.2 (render_template (flat segs) ctx) = true) ∧
    (∀ ctx2, ctx.Perm ctx2 →
      render_template (flat segs) ctx2 = render_template (flat segs) ctx) := by
  have hall : ∀ kv ∈ ctx, braceFree kv.1 = true ∧ openFree kv.2 = true :=
    fun kv hkv => ctxOk_kv hctx hkv
  have hrender := render_structured ctx segs hsegs hall
  refine ⟨?_, ?_, ?_⟩
  · intro kv hkv
    rw [hrender]
    refine occurs_ph_flat kv.1 (hall kv hkv).1 (fillAll ctx segs)
      (segsOk_fillAll ctx segs (fun p hp => (hall p hp).2) hsegs) ?_
    intro k2 hk2 heq
    rw [heq] at hk2
    exact (hole_mem_fillAll_inv ctx segs kv.1 hk2).1
      (List.mem_map.mpr ⟨kv, hkv, rfl⟩)
  · intro kv hkv
    rw [hrender]
    exact flat_occurs_of_lit_mem _ kv.2
      (lit_mem_fillAll ctx segs kv.1 kv.2 hkv (ctxOk_nodup hctx) (keysUsed_mem hused hkv))
  · intro ctx2 hperm
    have hall2 : ∀ kv ∈ ctx2, braceFree kv.1 = true ∧ openFree kv.2 = true :=
      fun kv hkv => hall kv (hperm.symm.subset hkv)
    rw [render_structured ctx2 segs hsegs hall2, hrender,
        fillAll_perm hperm (ctxOk_nodup hctx) segs]

theorem claim3_amended_witness :
    (segsOk [Seg.lit (asStr ("Dear ")), Seg.hole (asStr ("contact_name")),
             Seg.lit (asStr (" from ")), Seg.hole (asStr ("city")),
             Seg.hole (asStr ("extra"))] = true ∧
     ctxOk [(asStr ("contact_name"), asStr ("Anna")), (asStr ("city"), asStr ("Rome"))] = true ∧
     keysUsed [Seg.lit (asStr ("Dear ")), Seg.hole (asStr ("contact_name")),
               Seg.lit (asStr (" from ")), Seg.hole (asStr ("city")),
               Seg.hole (asStr ("extra"))]
       [(asStr ("contact_name"), asStr ("Anna")), (asStr ("city"), asStr ("Rome"))] = true) ∧
    ((∀ kv ∈ [(asStr ("contact_name"), asStr ("Anna")), (asStr ("city"), asStr ("Rome"))],
        occurs (placeholder kv.1)
          (render_template
            (flat [Seg.lit (asStr ("Dear ")), Seg.hole (asStr ("contact_name")),
                   Seg.lit (asStr (" from ")), Seg.hole (asStr ("city")),
                   Seg.hole (asStr ("extra"))])
            [(asStr ("contact_name"), asStr ("Anna")), (asStr ("city"), asStr ("Rome"))]) =
          false) ∧
     (∀ kv ∈ [(asStr ("contact_name"), asStr ("Anna")), (asStr ("city"), asStr ("Rome"))],
        occurs kv.2
          (render_template
            (flat [Seg.lit (asStr ("Dear ")), Seg.hole (asStr ("contact_name")),
                   Seg.lit (asStr (" from ")), Seg.hole (asStr ("city")),
                   Seg.hole (asStr ("extra"))])
            [(asStr ("contact_name"), asStr ("Anna")), (asStr ("city"), asStr ("Rome"))]) =
          true) ∧
     (∀ ctx2,
        List.Perm [(asStr ("contact_name"), asStr ("Anna")), (asStr ("city"), asStr ("Rome"))]
          ctx2 →
        render_template
            (flat [Seg.lit (asStr ("Dear ")), Seg.hole (asStr ("contact_name")),
                   Seg.lit (asStr (" from ")), Seg.hole (asStr ("city")),
                   Seg.hole (asStr ("extra"))]) ctx2 =
          render_template
            (flat [Seg.lit (asStr ("Dear ")), Seg.hole (asStr ("contact_name")),
                   Seg.lit (asStr (" from ")), Seg.hole (asStr ("city")),
                   Seg.hole (asStr ("extra"))])
            [(asStr ("contact_name"), asStr ("Anna")), (asStr ("city"), asStr ("Rome"))])) :=
  ⟨⟨by decide, by decide, by decide⟩,
   claim3_amended
     [Seg.lit (asStr ("Dear ")), Seg.hole (asStr ("contact_name")),
      Seg.lit (asStr (" from ")), Seg.hole (asStr ("city")),
      Seg.hole (asStr ("extra"))]
     [(asStr ("contact_name"), asStr ("Anna")), (asStr ("city"), asStr ("Rome"))]
     (by decide) (by decide) (by decide)⟩
